import Mathlib

/-!
Verification of the Cleaner repository (duplicate-detection pipeline,
LLM arbitration parsing, quarantine/recovery transaction log).

Modelling conventions, shared by all definitions below:

* Python `str` values are modelled as `List Char`; `.upper()` / `.lower()`
  are modelled on the ASCII range (all string constants compared by the
  program are ASCII).
* Python `float` arithmetic is modelled by exact rational arithmetic (`ℚ`).
  All numeric literals of the source (0.2, 0.6, 50, ...) are exactly
  representable, and no claim below depends on IEEE rounding of the sums
  involved.
* MD5 (`hashlib.md5(...).hexdigest()`) is modelled by an arbitrary digest
  function `h : List Nat → Nat` taken as a parameter: every fact proved
  holds for every digest function, and md5 is one such function.  File
  contents are read through `disk : List String → Nat → Nat` (byte at an
  offset of the file at a path), mirroring that `stat` metadata and
  `open(...).read(...)` are separate observations of the same file.
* Filesystem paths are modelled as their component lists after the anchor
  (`Path.relative_to(path.anchor)` is then the identity), and `resolve()`
  is the identity (no symlinks in the model).
* `try/except` around `stat`/`open` is modelled as the non-raising branch
  (reads succeed); quarantine *move* failures, the failure mode the claims
  are about, are modelled explicitly by a `deny` set of the filesystem.
-/

namespace Cleaner

/-! ## Python string primitives -/

set_option maxRecDepth 8000 in
/-- Characters Python's `str.strip()` / `str.split()` treat as whitespace
(ASCII fragment). -/
def isPySpace (c : Char) : Bool :=
  c = ' ' || c = '\t' || c = '\n' || c = '\r' || c = Char.ofNat 11 || c = Char.ofNat 12

/-- ASCII model of Python `str.lower` on one character. -/
def pyLowerChar (c : Char) : Char :=
  if 'A' ≤ c ∧ c ≤ 'Z' then Char.ofNat (c.toNat + 32) else c

/-- ASCII model of Python `str.upper` on one character. -/
def pyUpperChar (c : Char) : Char :=
  if 'a' ≤ c ∧ c ≤ 'z' then Char.ofNat (c.toNat - 32) else c

/-- Python `s.lower()`. -/
def lowerStr (s : List Char) : List Char := s.map pyLowerChar

/-- Python `s.upper()`. -/
def upperStr (s : List Char) : List Char := s.map pyUpperChar

/-- View a Lean string literal as the `List Char` it denotes. -/
def strL (s : String) : List Char := s.data

/-- Python `s.strip()`. -/
def pyStrip (s : List Char) : List Char :=
  ((s.dropWhile isPySpace).reverse.dropWhile isPySpace).reverse

/-- Python `s.split()` (no separator: split on whitespace runs, dropping
empty pieces). -/
def pyWords (s : List Char) : List (List Char) :=
  (s.splitOnP isPySpace).filter (fun w => w ≠ [])

/-- Python `s.split(sep)[0] / [1]` for `s.split(sep, 1)`: the text before
and after the first occurrence of `sep`, if `sep` occurs. -/
def pySplitOnce (sep : Char) : List Char → Option (List Char × List Char)
  | [] => none
  | c :: rest =>
    if c = sep then some ([], rest)
    else (pySplitOnce sep rest).map (fun pr => (c :: pr.1, pr.2))

/-- Python `s.split(CHR(10))` : the lines of a response. -/
def pySplitLines (s : List Char) : List (List Char) := s.splitOn '\n'

/-- Python substring test `needle in hay` (contiguous substring). -/
def isSubstr (needle hay : List Char) : Bool := decide (needle <:+: hay)

/-- Decidable equality of `Except` results (used to evaluate the embedded
fallible functions on concrete inputs). -/
instance {ε α : Type} [DecidableEq ε] [DecidableEq α] :
    DecidableEq (Except ε α) := fun a b =>
  match a, b with
  | .ok x, .ok y =>
    if h : x = y then .isTrue (congrArg Except.ok h)
    else .isFalse (fun hc => h (Except.ok.inj hc))
  | .error e, .error f =>
    if h : e = f then .isTrue (congrArg Except.error h)
    else .isFalse (fun hc => h (Except.error.inj hc))
  | .ok _, .error _ => .isFalse (fun hc => Except.noConfusion hc)
  | .error _, .ok _ => .isFalse (fun hc => Except.noConfusion hc)

/-- Decidable equality of rationals through the numerator/denominator pair
(the structurally derived instance does not reduce well on concrete
values; this one evaluates by integer comparison). -/
instance (priority := 2000) ratDecEqFast : DecidableEq ℚ := fun a b =>
  decidable_of_iff (a.num = b.num ∧ a.den = b.den)
    ⟨fun h => Rat.ext h.1 h.2, fun h => by rw [h]; exact ⟨rfl, rfl⟩⟩

/-! ## classificator.py — response parsing (`LLMClassifier`)

The HTTP consultation (`consult`) is I/O and is elided: each `analyze_*`
function below takes the classifier's textual `response` directly and
performs exactly the parsing and overriding the source performs on it.
A Python `IndexError` (raised by `split()[0]` on an all-whitespace field
value) is modelled by `Except.error "IndexError"`. -/

/-- One step of the parse loop of `analyze_old_file` / `analyze_process`:
given the current `(justification, field)` state and one response line,
`if "JUSTIFICATION:" in line.upper(): justification = line.split(':',1)[1].strip()`
`elif MARKER in line.upper(): field = line.split(':',1)[1].strip().split()[0]`. -/
def lineFieldUpdate (marker : List Char) (st : List Char × List Char)
    (line : List Char) : Except String (List Char × List Char) :=
  if isSubstr (strL "JUSTIFICATION:") (upperStr line) then
    match pySplitOnce ':' line with
    | some pr => .ok (pyStrip pr.2, st.2)
    | none => .error "IndexError"
  else if isSubstr marker (upperStr line) then
    match pySplitOnce ':' line with
    | some pr =>
      match pyWords (pyStrip pr.2) with
      | [] => .error "IndexError"
      | t :: _ => .ok (st.1, t)
    | none => .error "IndexError"
  else .ok st

/-- The parse loop of `analyze_old_file` (marker `RISK:`) and
`analyze_process` (marker `SAFETY:`): fold `lineFieldUpdate` over the
lines, starting from the empty justification and the default field value. -/
def parseFieldJust (marker dfault : List Char) (response : List Char) :
    Except String (List Char × List Char) :=
  (pySplitLines response).foldlM (lineFieldUpdate marker) ([], dfault)

/-- Model of `LLMClassifier.analyze_old_file`, parsing part: `should_delete` is
`"DECISION: YES" in response.upper()`; risk defaults to `MEDIUM`; if
`"HIGH" in risk.upper()` the decision is forced to `False` and the
justification annotated.  Returns `(should_delete, justification)`. -/
def analyze_old_file (response : List Char) : Except String (Bool × List Char) :=
  match parseFieldJust (strL "RISK:") (strL "MEDIUM") response with
  | .error e => .error e
  | .ok pr =>
    if isSubstr (strL "HIGH") (upperStr pr.2) then
      .ok (false, pr.1 ++ strL " [HIGH RISK - requires manual confirmation]")
    else
      .ok (isSubstr (strL "DECISION: YES") (upperStr response), pr.1)

/-- Model of `LLMClassifier.analyze_process`, parsing part: safety defaults to
`CAUTION`; if `"DANGEROUS" in safety.upper()` the decision is forced to
`False` and the justification annotated.  Returns `(should_kill, justification)`. -/
def analyze_process (response : List Char) : Except String (Bool × List Char) :=
  match parseFieldJust (strL "SAFETY:") (strL "CAUTION") response with
  | .error e => .error e
  | .ok pr =>
    if isSubstr (strL "DANGEROUS") (upperStr pr.2) then
      .ok (false, pr.1 ++ strL " [DANGEROUS - will not be killed]")
    else
      .ok (isSubstr (strL "DECISION: YES") (upperStr response), pr.1)

/-- The justification scan of `analyze_suspect_duplicate`: first line
containing `JUSTIFICATION:` (the loop `break`s), or `none`. -/
def findJustification : List (List Char) → Except String (Option (List Char))
  | [] => .ok none
  | line :: rest =>
    if isSubstr (strL "JUSTIFICATION:") (upperStr line) then
      match pySplitOnce ':' line with
      | some pr => .ok (some (pyStrip pr.2))
      | none => .error "IndexError"
    else findJustification rest

/-- Model of `LLMClassifier.analyze_suspect_duplicate`, parsing part: no risk field
is parsed and no safety override exists; `should_delete` is exactly
`"DECISION: YES" in response.upper()`; an empty justification falls back to
`response[:200]`. -/
def analyze_suspect_duplicate (response : List Char) :
    Except String (Bool × List Char) :=
  match findJustification (pySplitLines response) with
  | .error e => .error e
  | .ok j0 =>
    .ok (isSubstr (strL "DECISION: YES") (upperStr response),
      if j0.getD [] = [] then response.take 200 else j0.getD [])

/-! ## config.py — constants and the whitelist predicate -/

/-- Constant `Config.MIN_DUP_FILE_SIZE_MB = 50`. -/
def MIN_DUP_FILE_SIZE_MB : ℚ := 50

/-- Constant `Config.ACCURACY_DUP = 0.6`. -/
def ACCURACY_DUP : ℚ := 6/10

/-- Constant `Config.DAYS_OLD = 90`. -/
def DAYS_OLD : ℚ := 90

/-- Constant `Config.EXTENSIONS_TEMP`. -/
def EXTENSIONS_TEMP : List (List Char) :=
  [strL ".tmp", strL ".temp", strL ".log", strL ".bak", strL ".old",
   strL ".cache", strL ".dmp"]

/-- Constant `Config.EXTENSIONS_COMPRESSED`. -/
def EXTENSIONS_COMPRESSED : List (List Char) :=
  [strL ".zip", strL ".rar", strL ".7z", strL ".tar", strL ".gz",
   strL ".bz2", strL ".xz"]

/-- Model of `Config.is_in_whitelist`: `path.relative_to(protected_dir)` succeeds
exactly when the protected directory's components are a leading segment of
the path's components (`resolve()` is the identity in the model; the
whitelist contents are environment-dependent, so the list of protected
directories is a parameter `wl`). -/
def is_in_whitelist (wl : List (List String)) (p : List String) : Bool :=
  wl.any (fun d => d.isPrefixOf p)

/-! ## analysis.py — data model of a scanned file -/

/-- One regular file met by `rglob`: its path components (after the
anchor), `st_size`, `st_mtime`, `st_atime`.  The bytes of the file live on
the `disk` parameter, keyed by the path. -/
structure FileMeta where
  parts : List String
  size : Nat
  mtime : ℚ
  atime : ℚ
deriving DecidableEq, Repr

/-- Pathlib `path.name`: the final path component. -/
def nameOf (f : FileMeta) : List Char := strL (f.parts.getLastD "")

/-- Pathlib's stem/suffix split of a file name: `i = name.rfind(CHR(46))`;
the suffix starts at `i` when `0 < i < len(name) - 1`, else it is empty. -/
def pySuffixStem (nm : List Char) : List Char × List Char :=
  match ((List.range nm.length).filter (fun i => nm.getD i ' ' = '.')).getLast? with
  | some i => if 0 < i ∧ i < nm.length - 1 then (nm.take i, nm.drop i) else (nm, [])
  | none => (nm, [])

/-- Pathlib `file.stem`. -/
def stemOf (f : FileMeta) : List Char := (pySuffixStem (nameOf f)).1

/-- Pathlib `file.suffix`. -/
def suffixOf (f : FileMeta) : List Char := (pySuffixStem (nameOf f)).2

/-- The whole content of a file: `open(file).read()` byte list. -/
def readAll (disk : List String → Nat → Nat) (f : FileMeta) : List Nat :=
  (List.range f.size).map (disk f.parts)

/-- Python `open(file).read(k)`: the first `k` bytes (all of the file if shorter). -/
def readHead (disk : List String → Nat → Nat) (f : FileMeta) (k : Nat) : List Nat :=
  (readAll disk f).take k

/-- Model of `FilesAnalyzer.fast_hash`: digest of the first 8192 bytes.  `h` stands
for `hashlib.md5(...).hexdigest()` (see the module docstring). -/
def fast_hash (h : List Nat → Nat) (disk : List String → Nat → Nat)
    (f : FileMeta) : Nat :=
  h (readHead disk f 8192)

/-- Model of `FilesAnalyzer.full_hash`: digest of the whole content (the per-path
cache only memoizes this pure value and is semantically transparent). -/
def full_hash (h : List Nat → Nat) (disk : List String → Nat → Nat)
    (f : FileMeta) : Nat :=
  h (readAll disk f)

/-! ## analysis.py — similarity scorer -/

/-- The regex substitution `re.sub(PAT, EMPTY, s)` of `_name_similarity`,
where PAT is the alternation of `\(\d+\)` (a parenthesised digit run,
anywhere) and `\s+\d+$` (whitespace then digits at the end).  Scanning is
left to right; at a position, the first alternative is tried first; both
alternatives are matched by maximal munch (for this pattern backtracking
can never succeed where maximal munch fails). `\d`/`\s` are modelled on
ASCII. -/
def cleanSub : List Char → List Char
  | [] => []
  | c :: rest =>
    if c = '(' then
      let ds := rest.takeWhile Char.isDigit
      let r1 := rest.dropWhile Char.isDigit
      if ds ≠ [] ∧ r1.head? = some ')' then cleanSub r1.tail
      else c :: cleanSub rest
    else if isPySpace c then
      let r1 := rest.dropWhile isPySpace
      let ds := r1.takeWhile Char.isDigit
      let r2 := r1.dropWhile Char.isDigit
      if ds ≠ [] ∧ r2 = [] then []
      else c :: cleanSub rest
    else c :: cleanSub rest
termination_by l => l.length
decreasing_by
  · simp only [List.length_cons]
    have h1 : (List.dropWhile Char.isDigit rest).length ≤ rest.length :=
      (List.dropWhile_sublist Char.isDigit).length_le
    have h2 : (List.dropWhile Char.isDigit rest).tail.length ≤
        (List.dropWhile Char.isDigit rest).length :=
      (List.tail_sublist _).length_le
    omega
  · simp [Nat.lt_succ_self]
  · simp [Nat.lt_succ_self]
  · simp [Nat.lt_succ_self]

/-- Model of `FilesAnalyzer._name_similarity`: Jaccard similarity of the word sets
of the suffix-stripped names. -/
def name_similarity (s1 s2 : List Char) : ℚ :=
  if s1 = [] ∨ s2 = [] then 0
  else
    let words1 := (pyWords (cleanSub s1)).toFinset
    let words2 := (pyWords (cleanSub s2)).toFinset
    if words1 = ∅ ∨ words2 = ∅ then 0
    else ((words1 ∩ words2).card : ℚ) / ((words1 ∪ words2).card : ℚ)

/-- The name signal of `_calculate_accuracy_fuzzy` on the two lowered
stems: exact match +0.4, one a substring of the other +0.3 (Python
`name1 in name2 or name2 in name1`), Jaccard similarity ≥ 0.7 +0.2,
else 0. -/
def nameScore (n1 n2 : List Char) : ℚ :=
  if n1 = n2 then 4/10
  else if isSubstr n1 n2 || isSubstr n2 n1 then 3/10
  else if 7/10 ≤ name_similarity n1 n2 then 2/10
  else 0

/-- The modification-time signal: `dif_days < 1` +0.2, `< 7` +0.1, else 0. -/
def mtimeScore (m1 m2 : ℚ) : ℚ :=
  if |m1 - m2| / (24 * 3600) < 1 then 2/10
  else if |m1 - m2| / (24 * 3600) < 7 then 1/10
  else 0

/-- The per-pair score of `_calculate_accuracy_fuzzy`: extension equality
(+0.2) + name signal + modification-time signal + fast-digest equality
(+0.2). -/
def pairScore (h : List Nat → Nat) (disk : List String → Nat → Nat)
    (f1 f2 : FileMeta) : ℚ :=
  (if suffixOf f1 = suffixOf f2 then 2/10 else 0)
  + nameScore (lowerStr (stemOf f1)) (lowerStr (stemOf f2))
  + mtimeScore f1.mtime f2.mtime
  + (if fast_hash h disk f1 = fast_hash h disk f2 then 2/10 else 0)

/-- All unordered pairs of a list, in the order the double loop
`for i, file1 in enumerate(files): for file2 in files[i+1:]` visits them. -/
def allPairs : List α → List (α × α)
  | [] => []
  | x :: xs => xs.map (fun y => (x, y)) ++ allPairs xs

/-- Model of `FilesAnalyzer._calculate_accuracy_fuzzy`: 0.0 for fewer than two
files, else the mean of the pairwise scores (`comparations > 0` guard kept
from the source). -/
def calculate_accuracy_fuzzy (h : List Nat → Nat)
    (disk : List String → Nat → Nat) (files : List FileMeta) : ℚ :=
  if files.length < 2 then 0
  else
    let ps := (allPairs files).map (fun pr => pairScore h disk pr.1 pr.2)
    if 0 < ps.length then ps.sum / (ps.length : ℚ) else 0

/-! ## analysis.py — duplicate resolution pipeline (`find_dup`) -/

/-- A duplicate-group record, modelled as the Python dict the source
builds: an association list in literal key order.  `GVal` is the value
type of those dicts. -/
inductive GVal where
  | fl : List FileMeta → GVal
  | q : ℚ → GVal
  | s : String → GVal
deriving DecidableEq, Repr

/-- A Python dict produced by `find_dup` for one group. -/
abbrev Group := List (String × GVal)

/-- Python `d[k]` lookup that returns `none` where Python raises `KeyError`. -/
def dictGet (g : Group) (k : String) : Option GVal :=
  (g.find? (fun kv => kv.1 = k)).map (fun kv => kv.2)

/-- The keys of a group dict, in insertion order. -/
def keysOf (g : Group) : List String := g.map (fun kv => kv.1)

/-- The group-dict literal of `find_dup` (same key order for confirmed and
for suspect groups). -/
def mkGroup (files : List FileMeta) (length_mb accuracy : ℚ) (ty : String) : Group :=
  [("files", GVal.fl files), ("length_mb", GVal.q length_mb),
   ("accuracy", GVal.q accuracy), ("type", GVal.s ty)]

/-- The `files` entry of a group. -/
def filesOf (g : Group) : List FileMeta :=
  match dictGet g "files" with
  | some (GVal.fl l) => l
  | _ => []

/-- Keys of a `defaultdict` in insertion order (first occurrence wins),
as Python dicts preserve insertion order. -/
def firstDedup [DecidableEq α] (l : List α) : List α :=
  l.foldl (fun acc s => if s ∈ acc then acc else acc ++ [s]) []

/-- The full-hash grouping step shared verbatim by the two branches of
`find_dup`: bucket `l` by full digest; every digest bucket with more than
one member becomes a confirmed group with accuracy 1.0. -/
def confirmedSub (h : List Nat → Nat) (disk : List String → Nat → Nat)
    (l : List FileMeta) (length_mb : ℚ) : List Group :=
  (firstDedup (l.map (full_hash h disk))).filterMap (fun hk =>
    if 1 < (l.filter (fun f => full_hash h disk f = hk)).length then
      some (mkGroup (l.filter (fun f => full_hash h disk f = hk)) length_mb 1 "confirmed")
    else none)

/-- Phase-1 filter of `find_dup`: regular files (input is the `rglob`
stream of regular files), not whitelisted, with `st_size > 0`. -/
def keptOf (wl : List (List String)) (files : List FileMeta) : List FileMeta :=
  files.filter (fun f => !is_in_whitelist wl f.parts && decide (0 < f.size))

/-- The size bucket `by_size[s]`. -/
def bucketOf (wl : List (List String)) (files : List FileMeta) (s : Nat) :
    List FileMeta :=
  (keptOf wl files).filter (fun f => f.size = s)

/-- One fast-hash cluster of the large-file branch: the bucket members
sharing fast digest `fh`. -/
def clusterOf (h : List Nat → Nat) (disk : List String → Nat → Nat)
    (bucket : List FileMeta) (fh : Nat) : List FileMeta :=
  bucket.filter (fun f => fast_hash h disk f = fh)

/-- The large-file branch of `find_dup` for one fast-hash cluster:
clusters below two members are dropped; a cluster whose fuzzy accuracy
reaches `ACCURACY_DUP` goes through full-hash confirmation, any other
cluster becomes one suspect group carrying the fuzzy accuracy. -/
def bigGroupsFor (h : List Nat → Nat) (disk : List String → Nat → Nat)
    (bucket : List FileMeta) (length_mb : ℚ) (fh : Nat) :
    List Group × List Group :=
  if (clusterOf h disk bucket fh).length < 2 then ([], [])
  else if ACCURACY_DUP ≤ calculate_accuracy_fuzzy h disk (clusterOf h disk bucket fh) then
    (confirmedSub h disk (clusterOf h disk bucket fh) length_mb, [])
  else
    ([], [mkGroup (clusterOf h disk bucket fh) length_mb
            (calculate_accuracy_fuzzy h disk (clusterOf h disk bucket fh)) "suspect"])

/-- Model of `find_dup` phase 2+3 for one size bucket: buckets below two members
are skipped; small/medium buckets (`length_mb <= MIN_DUP_FILE_SIZE_MB`)
are full-hashed directly, large buckets go through fast-hash clustering. -/
def groupsForSize (h : List Nat → Nat) (disk : List String → Nat → Nat)
    (wl : List (List String)) (files : List FileMeta) (s : Nat) :
    List Group × List Group :=
  if (bucketOf wl files s).length < 2 then ([], [])
  else if ((s : ℚ) / (1024 * 1024)) ≤ MIN_DUP_FILE_SIZE_MB then
    (confirmedSub h disk (bucketOf wl files s) ((s : ℚ) / (1024 * 1024)), [])
  else
    (((firstDedup ((bucketOf wl files s).map (fast_hash h disk))).map
        (fun fh => (bigGroupsFor h disk (bucketOf wl files s) ((s : ℚ) / (1024 * 1024)) fh).1)).flatten,
     ((firstDedup ((bucketOf wl files s).map (fast_hash h disk))).map
        (fun fh => (bigGroupsFor h disk (bucketOf wl files s) ((s : ℚ) / (1024 * 1024)) fh).2)).flatten)

/-- The result dict of `find_dup`. -/
structure DupResult where
  confirmed : List Group
  suspect : List Group
deriving DecidableEq, Repr

/-- Model of `FilesAnalyzer.find_dup` over the stream `files` of regular files the
`rglob` loops produce (directory-existence and `is_file` filtering are
absorbed into the input; `stat` errors are modelled as absent). -/
def find_dup (h : List Nat → Nat) (disk : List String → Nat → Nat)
    (wl : List (List String)) (files : List FileMeta) : DupResult :=
  { confirmed := ((firstDedup ((keptOf wl files).map (fun f => f.size))).map
      (fun s => (groupsForSize h disk wl files s).1)).flatten
    suspect := ((firstDedup ((keptOf wl files).map (fun f => f.size))).map
      (fun s => (groupsForSize h disk wl files s).2)).flatten }

/-! ## analysis.py / main.py — the other enumeration loops -/

/-- The record `unused_files` builds per stale file. -/
structure UnusedItem where
  file : FileMeta
  days_unused : ℤ
  size_mb : ℚ
deriving DecidableEq, Repr

/-- Model of `FilesAnalyzer.unused_files` at current time `now`: files (not
whitelisted) whose `max(st_atime, st_mtime)` is older than the
`DAYS_OLD`-day cutoff (`int(...)` truncation equals `floor` here since the
day count is nonnegative under the filter). -/
def unused_files (wl : List (List String)) (now : ℚ) (files : List FileMeta) :
    List UnusedItem :=
  (files.filter (fun f =>
      !is_in_whitelist wl f.parts && decide (max f.atime f.mtime < now - DAYS_OLD * (24 * 3600)))).map
    (fun f =>
      { file := f
        days_unused := ⌊(now - max f.atime f.mtime) / (24 * 3600)⌋
        size_mb := (f.size : ℚ) / (1024 * 1024) })

/-- The temporary-file loop of `SmartCleaner.general_cleanup`: skips
whitelisted paths, keeps `EXTENSIONS_TEMP` suffixes. -/
def temp_files_scan (wl : List (List String)) (files : List FileMeta) :
    List FileMeta :=
  files.filter (fun f =>
    !is_in_whitelist wl f.parts
      && decide (lowerStr (suffixOf f) ∈ EXTENSIONS_TEMP))

/-- The compressed-file loop of `SmartCleaner.general_cleanup`: keeps
`EXTENSIONS_COMPRESSED` suffixes older than 30 days — the source performs
no whitelist check in this loop. -/
def compressed_scan (now : ℚ) (files : List FileMeta) : List FileMeta :=
  files.filter (fun f =>
    decide (lowerStr (suffixOf f) ∈ EXTENSIONS_COMPRESSED)
      && decide (30 < (now - f.mtime) / 86400))

/-- The duplicate-consuming fragment of `SmartCleaner.deep_cleanup`:
section 4a reads `group['files']` then `group['size_mb']` of each
confirmed group.  A missing key is Python's `KeyError`, which aborts the
loop.  The printing and the deletion calls that follow a successful
access are elided: they are unreachable for the records `find_dup`
actually produces (see the C9 theorems). -/
def dup_section_confirmed : List Group → Except String Unit
  | [] => .ok ()
  | g :: gs =>
    match dictGet g "files" with
    | none => .error "KeyError: files"
    | some _ =>
      match dictGet g "size_mb" with
      | none => .error "KeyError: size_mb"
      | some _ => dup_section_confirmed gs

/-- The 4b loop body over suspect groups (`group['files']`,
`group['confidence']`). -/
def dup_section_suspect : List Group → Except String Unit
  | [] => .ok ()
  | g :: gs =>
    match dictGet g "files" with
    | none => .error "KeyError: files"
    | some _ =>
      match dictGet g "confidence" with
      | none => .error "KeyError: confidence"
      | some _ => dup_section_suspect gs

/-- Sections 4a and 4b in sequence: the suspect loop runs only when the
LLM is available (else suspect groups are ignored with a console note). -/
def deep_cleanup_dup_section (r : DupResult) (llm_available : Bool) :
    Except String Unit :=
  match dup_section_confirmed r.confirmed with
  | .error e => .error e
  | .ok _ => if llm_available then dup_section_suspect r.suspect else .ok ()

/-! ## logger.py / executor.py / recuperator.py — quarantine transaction log

The filesystem is a flat map from path components to byte content, plus a
`deny` set of paths whose move away raises (modelling `PermissionError`
and similar `shutil.move` failures).  `mkdir(parents=True, exist_ok=True)`
is a no-op in a file-map model.  Exception details are abbreviated to the
exception class name (the source stores `str(e)`). -/

/-- Filesystem state for the quarantine store. -/
structure FSL where
  files : List (List String × List Nat)
  deny : List (List String)
deriving DecidableEq, Repr

/-- Path lookup (`Path.exists` / `open`): first matching entry. -/
def fsGet (fs : FSL) (p : List String) : Option (List Nat) :=
  (fs.files.find? (fun kv => kv.1 = p)).map (fun kv => kv.2)

/-- Remove a path from the file map. -/
def fsErase (l : List (List String × List Nat)) (p : List String) :
    List (List String × List Nat) :=
  l.filter (fun kv => kv.1 ≠ p)

/-- Python `shutil.move(src, dst)`: fails if the source is gone or the move is
denied; otherwise the content reappears under `dst` (replacing any
previous `dst`) and disappears from `src`. -/
def fsMove (fs : FSL) (src dst : List String) : Except String FSL :=
  if src ∈ fs.deny then .error "PermissionError"
  else
    match fsGet fs src with
    | none => .error "FileNotFoundError"
    | some c => .ok { fs with files := (dst, c) :: fsErase (fsErase fs.files src) dst }

/-- One journal action record (`logger.py`; the details dict
`{reason, size_mb}` is inlined as two fields, the wall-clock timestamp is
not modelled). -/
structure Action where
  type_ : String
  file : List String
  reason : String
  details_size_mb : ℚ
  quarantine : Option (List String)
  status : Option String
  errMsg : Option String
deriving DecidableEq, Repr

/-- Round-half-to-even to an integer, Python's `round` tie rule. -/
def roundHalfEven (q : ℚ) : ℤ :=
  if q - ⌊q⌋ < 1/2 then ⌊q⌋
  else if 1/2 < q - ⌊q⌋ then ⌊q⌋ + 1
  else if ⌊q⌋ % 2 = 0 then ⌊q⌋ else ⌊q⌋ + 1

/-- Python `round(x, 2)` in exact arithmetic. -/
def pyRound2 (q : ℚ) : ℚ := (roundHalfEven (q * 100) : ℚ) / 100

/-- Model of `CleanerLogger.add_action`: records the action; for type `delete` it
first moves the file into the quarantine mirror
(`quarantine_dir / file.relative_to(file.anchor)`); on success the record
gets `quarantine` and status `moved to quarantine`; on any move failure
the record gets status `error` with the error detail, and the exception is
swallowed (the caller never sees it). -/
def add_action (qdir : List String) (fs : FSL) (acts : List Action)
    (ty : String) (p : List String) (reason : String) (smb : ℚ) :
    FSL × List Action :=
  let a : Action :=
    { type_ := ty, file := p, reason := reason, details_size_mb := smb
      quarantine := none, status := none, errMsg := none }
  if ty = "delete" then
    match fsMove fs p (qdir ++ p) with
    | .ok fs2 =>
      (fs2, acts ++
        [{ a with
            quarantine := some (qdir ++ p)
            status := some "moved to quarantine" }])
    | .error e =>
      (fs, acts ++ [{ a with status := some "error", errMsg := some e }])
  else (fs, acts ++ [a])

/-- Aggregate statistics of `Executor`. -/
structure Stats where
  files_deleted : Nat
  space_freed_mb : ℚ
  processes_killed : Nat
  errors : List String
deriving DecidableEq, Repr

/-- Combined state threaded through `Executor.delete_file`. -/
structure ExecState where
  fs : FSL
  acts : List Action
  stats : Stats
deriving DecidableEq, Repr

/-- Model of `Executor.delete_file` (with `dry_run` as an explicit flag): checks
existence, stats the size, delegates the quarantine move to
`add_action`, then increments `files_deleted` and `space_freed_mb` and
returns `True` — unconditionally, because `add_action` never raises (its
`except` branch swallows the move failure), so the executor's own
`except`-to-`statistics.errors` path is unreachable for move failures. -/
def delete_file (qdir : List String) (dryRun : Bool) (st : ExecState)
    (p : List String) (reason : String) : ExecState × Bool :=
  if dryRun then (st, true)
  else
    match fsGet st.fs p with
    | none =>
      ({ st with stats :=
          { st.stats with errors := st.stats.errors ++ ["File does not exist"] } },
       false)
    | some c =>
      let size_mb : ℚ := (c.length : ℚ) / (1024 * 1024)
      let fa := add_action qdir st.fs st.acts "delete" p reason (pyRound2 size_mb)
      ({ fs := fa.1, acts := fa.2
         stats := { st.stats with
                    files_deleted := st.stats.files_deleted + 1
                    space_freed_mb := st.stats.space_freed_mb + size_mb } },
       true)

/-- Model of `Recuperator.recover_file`: if the quarantine copy is gone, report and
return `False`; otherwise create the original's parents (no-op here) and
move the copy back.  The journal data is not touched.  The second
component is the success flag, the third the console reports. -/
def recover_file (fs : FSL) (quarantine original : List String) :
    FSL × Bool × List String :=
  if fsGet fs quarantine = none then
    (fs, false, ["File not found in quarantine"])
  else
    match fsMove fs quarantine original with
    | .ok fs2 => (fs2, true, ["Recovered"])
    | .error _ => (fs, false, ["Error recovering"])

/-- Model of `Recuperator.delete_file` (purge of one quarantine entry): unlink the
quarantine copy only if it exists; when it is already gone the function
does nothing and prints nothing.  Exceptions from `unlink` are caught
(the successful unlink is modelled), so the function is total. -/
def recup_delete_file (fs : FSL) (quarantine : List String) :
    FSL × List String :=
  if (fsGet fs quarantine).isSome then
    ({ fs with files := fsErase fs.files quarantine }, [])
  else
    (fs, [])

/-! ## Concrete instances used by the witnesses and counterexamples -/

/-- A digest function instance: md5 is one function `List Nat → Nat`; the
constant function is another admissible instance (all facts proved below
are universally quantified over the digest). -/
def hashZero : List Nat → Nat := fun _ => 0

/-- A disk whose files are all zero bytes. -/
def diskZero : List String → Nat → Nat := fun _ _ => 0

/-- File `report.docx`, 100 bytes, mtime 0. -/
def exReport : FileMeta :=
  { parts := ["c", "users", "me", "report.docx"], size := 100, mtime := 0, atime := 0 }

/-- File `report (1).docx`, 100 bytes, mtime two hours later. -/
def exReport1 : FileMeta :=
  { parts := ["c", "users", "me", "report (1).docx"], size := 100, mtime := 7200, atime := 0 }

/-- A large file (52428801 bytes, one byte above the 50 MB threshold). -/
def exBigA : FileMeta :=
  { parts := ["c", "users", "me", "aaaa.bin"], size := 52428801, mtime := 0, atime := 0 }

/-- A byte-identical large file with a dissimilar name, extension and
modification time (about 115 days later). -/
def exBigB : FileMeta :=
  { parts := ["c", "users", "me", "zzzz.dat"], size := 52428801, mtime := 10000000, atime := 0 }

/-- A small file, 5 bytes. -/
def exSmallX : FileMeta :=
  { parts := ["c", "users", "me", "x.txt"], size := 5, mtime := 0, atime := 0 }

/-- A byte-identical small file at another path. -/
def exSmallY : FileMeta :=
  { parts := ["c", "users", "me", "y.txt"], size := 5, mtime := 50, atime := 0 }

/-- An old `.zip` inside a whitelisted directory. -/
def exZip : FileMeta :=
  { parts := ["c", "protected", "old.zip"], size := 10, mtime := 0, atime := 0 }

/-- A `.tmp` file outside any whitelisted directory. -/
def exTemp : FileMeta :=
  { parts := ["c", "users", "me", "junk.tmp"], size := 10, mtime := 0, atime := 0 }

/-- Fresh executor statistics. -/
def exStats0 : Stats :=
  { files_deleted := 0, space_freed_mb := 0, processes_killed := 0, errors := [] }

/-! ## Helper lemmas -/

theorem mem_foldl_dedup [DecidableEq α] (l : List α) :
    ∀ (acc : List α) (x : α),
      (x ∈ l.foldl (fun acc s => if s ∈ acc then acc else acc ++ [s]) acc) ↔
        (x ∈ acc ∨ x ∈ l) := by
  induction l with
  | nil => intro acc x; simp
  | cons a t ih =>
    intro acc x
    simp only [List.foldl_cons]
    rw [ih]
    by_cases h : a ∈ acc
    · rw [if_pos h]
      simp only [List.mem_cons]
      constructor
      · rintro (hx | hx)
        · exact Or.inl hx
        · exact Or.inr (Or.inr hx)
      · rintro (hx | rfl | hx)
        · exact Or.inl hx
        · exact Or.inl h
        · exact Or.inr hx
    · rw [if_neg h]
      simp only [List.mem_append, List.mem_singleton, List.mem_cons]
      tauto

theorem mem_firstDedup [DecidableEq α] (l : List α) (x : α) :
    x ∈ firstDedup l ↔ x ∈ l := by
  unfold firstDedup
  rw [mem_foldl_dedup]
  simp

theorem two_le_length_of_mem [DecidableEq α] {l : List α} {a b : α}
    (ha : a ∈ l) (hb : b ∈ l) (hab : a ≠ b) : 2 ≤ l.length := by
  have h1 : 1 < l.toFinset.card :=
    Finset.one_lt_card.mpr
      ⟨a, List.mem_toFinset.mpr ha, b, List.mem_toFinset.mpr hb, hab⟩
  have h2 : l.toFinset.card ≤ l.length := l.toFinset_card_le
  omega

theorem filesOf_mkGroup (l : List FileMeta) (a b : ℚ) (t : String) :
    filesOf (mkGroup l a b t) = l := rfl

theorem keysOf_mkGroup (l : List FileMeta) (a b : ℚ) (t : String) :
    keysOf (mkGroup l a b t) = ["files", "length_mb", "accuracy", "type"] := rfl

theorem dictGet_mkGroup_accuracy (l : List FileMeta) (a b : ℚ) (t : String) :
    dictGet (mkGroup l a b t) "accuracy" = some (GVal.q b) := rfl

theorem dictGet_mkGroup_type (l : List FileMeta) (a b : ℚ) (t : String) :
    dictGet (mkGroup l a b t) "type" = some (GVal.s t) := rfl

theorem dictGet_mkGroup_size_mb (l : List FileMeta) (a b : ℚ) (t : String) :
    dictGet (mkGroup l a b t) "size_mb" = none := rfl

theorem dictGet_mkGroup_confidence (l : List FileMeta) (a b : ℚ) (t : String) :
    dictGet (mkGroup l a b t) "confidence" = none := rfl

theorem mem_keptOf (wl : List (List String)) (files : List FileMeta) (f : FileMeta) :
    f ∈ keptOf wl files ↔
      f ∈ files ∧ is_in_whitelist wl f.parts = false ∧ 0 < f.size := by
  unfold keptOf
  rw [List.mem_filter]
  simp [Bool.and_eq_true, Bool.not_eq_true', decide_eq_true_eq]

theorem pairScore_nonneg (h : List Nat → Nat) (disk : List String → Nat → Nat)
    (f1 f2 : FileMeta) : 0 ≤ pairScore h disk f1 f2 := by
  unfold pairScore nameScore mtimeScore
  split_ifs <;> norm_num

theorem pairScore_le_one (h : List Nat → Nat) (disk : List String → Nat → Nat)
    (f1 f2 : FileMeta) : pairScore h disk f1 f2 ≤ 1 := by
  unfold pairScore nameScore mtimeScore
  split_ifs <;> norm_num

theorem sum_le_length_of_le_one (l : List ℚ) :
    (∀ x ∈ l, x ≤ 1) → l.sum ≤ (l.length : ℚ) := by
  induction l with
  | nil => intro _; simp
  | cons a t ih =>
    intro hb
    have ha := hb a (List.mem_cons_self a t)
    have ht := ih (fun x hx => hb x (List.mem_cons_of_mem a hx))
    simp only [List.sum_cons, List.length_cons]
    push_cast
    linarith

theorem mem_confirmedSub_inv {h : List Nat → Nat} {disk : List String → Nat → Nat}
    {l : List FileMeta} {lmb : ℚ} {g : Group}
    (hg : g ∈ confirmedSub h disk l lmb) :
    ∃ hk, g = mkGroup (l.filter (fun f => full_hash h disk f = hk)) lmb 1 "confirmed" ∧
      1 < (l.filter (fun f => full_hash h disk f = hk)).length := by
  unfold confirmedSub at hg
  rw [List.mem_filterMap] at hg
  obtain ⟨hk, _, heq⟩ := hg
  by_cases hlen : 1 < (l.filter (fun f => full_hash h disk f = hk)).length
  · rw [if_pos hlen] at heq
    exact ⟨hk, (Option.some_inj.mp heq).symm, hlen⟩
  · rw [if_neg hlen] at heq
    cases heq

theorem mem_bigGroupsFor_inv {h : List Nat → Nat} {disk : List String → Nat → Nat}
    {bucket : List FileMeta} {lmb : ℚ} {fh : Nat} {g : Group}
    (hg : g ∈ (bigGroupsFor h disk bucket lmb fh).1 ∨
          g ∈ (bigGroupsFor h disk bucket lmb fh).2) :
    ∃ (l : List FileMeta) (a : ℚ) (ty : String),
      g = mkGroup l lmb a ty ∧ ∀ f ∈ l, f ∈ bucket := by
  unfold bigGroupsFor at hg
  by_cases h1 : (clusterOf h disk bucket fh).length < 2
  · rw [if_pos h1] at hg
    simp at hg
  · rw [if_neg h1] at hg
    by_cases h2 : ACCURACY_DUP ≤ calculate_accuracy_fuzzy h disk (clusterOf h disk bucket fh)
    · rw [if_pos h2] at hg
      rcases hg with hg | hg
      · obtain ⟨hk, rfl, _⟩ := mem_confirmedSub_inv hg
        refine ⟨_, _, _, rfl, ?_⟩
        intro f hf
        exact List.mem_of_mem_filter (List.mem_of_mem_filter hf)
      · simp at hg
    · rw [if_neg h2] at hg
      rcases hg with hg | hg
      · simp at hg
      · rw [List.mem_singleton] at hg
        subst hg
        refine ⟨_, _, _, rfl, ?_⟩
        intro f hf
        exact List.mem_of_mem_filter hf

theorem mem_groupsForSize_inv {h : List Nat → Nat} {disk : List String → Nat → Nat}
    {wl : List (List String)} {files : List FileMeta} {s : Nat} {g : Group}
    (hg : g ∈ (groupsForSize h disk wl files s).1 ∨
          g ∈ (groupsForSize h disk wl files s).2) :
    ∃ (l : List FileMeta) (lmb a : ℚ) (ty : String),
      g = mkGroup l lmb a ty ∧ ∀ f ∈ l, f ∈ keptOf wl files := by
  unfold groupsForSize at hg
  by_cases h1 : (bucketOf wl files s).length < 2
  · rw [if_pos h1] at hg
    simp at hg
  · rw [if_neg h1] at hg
    by_cases h2 : ((s : ℚ) / (1024 * 1024)) ≤ MIN_DUP_FILE_SIZE_MB
    · rw [if_pos h2] at hg
      rcases hg with hg | hg
      · obtain ⟨hk, rfl, _⟩ := mem_confirmedSub_inv hg
        refine ⟨_, _, _, _, rfl, ?_⟩
        intro f hf
        exact List.mem_of_mem_filter (List.mem_of_mem_filter hf)
      · simp at hg
    · rw [if_neg h2] at hg
      rcases hg with hg | hg
      · rw [List.mem_flatten] at hg
        obtain ⟨gl, hgl, hggl⟩ := hg
        rw [List.mem_map] at hgl
        obtain ⟨fh, _, rfl⟩ := hgl
        obtain ⟨l, a, ty, rfl, hsub⟩ := mem_bigGroupsFor_inv (Or.inl hggl)
        exact ⟨l, _, a, ty, rfl, fun f hf => List.mem_of_mem_filter (hsub f hf)⟩
      · rw [List.mem_flatten] at hg
        obtain ⟨gl, hgl, hggl⟩ := hg
        rw [List.mem_map] at hgl
        obtain ⟨fh, _, rfl⟩ := hgl
        obtain ⟨l, a, ty, rfl, hsub⟩ := mem_bigGroupsFor_inv (Or.inr hggl)
        exact ⟨l, _, a, ty, rfl, fun f hf => List.mem_of_mem_filter (hsub f hf)⟩

theorem find_dup_mem_inv {h : List Nat → Nat} {disk : List String → Nat → Nat}
    {wl : List (List String)} {files : List FileMeta} {g : Group}
    (hg : g ∈ (find_dup h disk wl files).confirmed ∨
          g ∈ (find_dup h disk wl files).suspect) :
    ∃ (l : List FileMeta) (lmb a : ℚ) (ty : String),
      g = mkGroup l lmb a ty ∧ ∀ f ∈ l, f ∈ keptOf wl files := by
  unfold find_dup at hg
  simp only at hg
  rcases hg with hg | hg
  · rw [List.mem_flatten] at hg
    obtain ⟨gl, hgl, hggl⟩ := hg
    rw [List.mem_map] at hgl
    obtain ⟨s, _, rfl⟩ := hgl
    exact mem_groupsForSize_inv (Or.inl hggl)
  · rw [List.mem_flatten] at hg
    obtain ⟨gl, hgl, hggl⟩ := hg
    rw [List.mem_map] at hgl
    obtain ⟨s, _, rfl⟩ := hgl
    exact mem_groupsForSize_inv (Or.inr hggl)

theorem mem_of_confirmedSub (h : List Nat → Nat) (disk : List String → Nat → Nat)
    (l : List FileMeta) (lmb : ℚ) {A B : FileMeta}
    (hA : A ∈ l) (hB : B ∈ l) (hAB : A ≠ B)
    (hfull : full_hash h disk A = full_hash h disk B) :
    ∃ g, g ∈ confirmedSub h disk l lmb ∧ A ∈ filesOf g ∧ B ∈ filesOf g ∧
      dictGet g "accuracy" = some (GVal.q 1) ∧
      dictGet g "type" = some (GVal.s "confirmed") := by
  have hAf : A ∈ l.filter (fun f => full_hash h disk f = full_hash h disk A) :=
    List.mem_filter.mpr ⟨hA, by simp⟩
  have hBf : B ∈ l.filter (fun f => full_hash h disk f = full_hash h disk A) :=
    List.mem_filter.mpr ⟨hB, by simp [hfull]⟩
  have hlen : 1 < (l.filter (fun f => full_hash h disk f = full_hash h disk A)).length := by
    have := two_le_length_of_mem hAf hBf hAB
    omega
  refine ⟨mkGroup (l.filter (fun f => full_hash h disk f = full_hash h disk A))
      lmb 1 "confirmed", ?_, ?_, ?_, rfl, rfl⟩
  · unfold confirmedSub
    rw [List.mem_filterMap]
    refine ⟨full_hash h disk A, ?_, ?_⟩
    · exact (mem_firstDedup _ _).mpr (List.mem_map_of_mem _ hA)
    · rw [if_pos hlen]
  · rw [filesOf_mkGroup]
    exact hAf
  · rw [filesOf_mkGroup]
    exact hBf

theorem mem_find_dup_confirmed (h : List Nat → Nat) (disk : List String → Nat → Nat)
    (wl : List (List String)) (files : List FileMeta) (s : Nat) (g : Group)
    (hs : s ∈ firstDedup ((keptOf wl files).map (fun f => f.size)))
    (hg : g ∈ (groupsForSize h disk wl files s).1) :
    g ∈ (find_dup h disk wl files).confirmed := by
  unfold find_dup
  simp only
  rw [List.mem_flatten]
  exact ⟨_, List.mem_map_of_mem _ hs, hg⟩

theorem dup_section_err_confirmed (r : DupResult) (llm : Bool)
    (l : List FileMeta) (lmb a : ℚ) (ty : String) (gs : List Group)
    (hc : r.confirmed = mkGroup l lmb a ty :: gs) :
    deep_cleanup_dup_section r llm = .error "KeyError: size_mb" := by
  unfold deep_cleanup_dup_section
  rw [hc]
  rfl

theorem dup_section_err_suspect (r : DupResult) (llm : Bool)
    (l : List FileMeta) (lmb a : ℚ) (ty : String) (gs : List Group)
    (hc : r.confirmed = []) (hs : r.suspect = mkGroup l lmb a ty :: gs)
    (hllm : llm = true) :
    deep_cleanup_dup_section r llm = .error "KeyError: confidence" := by
  unfold deep_cleanup_dup_section
  rw [hc, hs, hllm]
  rfl

theorem dup_section_ok_of (r : DupResult) (llm : Bool)
    (hc : r.confirmed = []) (hllm : llm = false) :
    deep_cleanup_dup_section r llm = .ok () := by
  unfold deep_cleanup_dup_section
  rw [hc, hllm]
  rfl

theorem fsGet_head (l : List (List String × List Nat)) (d : List (List String))
    (p : List String) (c : List Nat) :
    fsGet { files := (p, c) :: l, deny := d } p = some c := by
  unfold fsGet
  rw [List.find?_cons_of_pos _ (by simp)]
  rfl

/-! ## Claims -/

/-- C1 counterexample.  Two byte-identical files of equal size one byte
above the 50 MB threshold, with dissimilar names, extensions and
modification times (over 7 days apart): `find_dup` emits **no** confirmed
group; it reports the pair as one *suspect* group whose accuracy is the
fuzzy score 0.2 (= fast-digest agreement only), not 1.0.  This refutes the
claim's "for every such pair, including pairs whose per-file size exceeds
the 50 MB threshold and whose names and modification times are arbitrarily
dissimilar". -/
theorem c1_counterexample :
    readAll diskZero exBigA = readAll diskZero exBigB ∧
    exBigA.size = exBigB.size ∧
    ¬ ((exBigA.size : ℚ) / (1024 * 1024) ≤ MIN_DUP_FILE_SIZE_MB) ∧
    (find_dup hashZero diskZero [] [exBigA, exBigB]).confirmed = [] ∧
    (find_dup hashZero diskZero [] [exBigA, exBigB]).suspect.map
        (fun g => ((filesOf g).map (fun f => f.parts),
          dictGet g "accuracy", dictGet g "type"))
      = [([exBigA.parts, exBigB.parts],
          some (GVal.q (2/10)), some (GVal.s "suspect"))] :=
  ⟨rfl, by decide, by with_unfolding_all decide, by with_unfolding_all decide,
    by with_unfolding_all decide⟩

set_option maxRecDepth 8000 in
/-- C1 (amended).  For every two scanned, non-whitelisted, distinct files
of equal positive size and byte-identical content, `find_dup` places both
in the same confirmed duplicate group with accuracy exactly 1.0 —
*provided* the per-file size is at most the 50 MB threshold, or the
fast-hash cluster containing them reaches the 0.6 fuzzy-score acceptance
threshold (above the threshold with a lower cluster score the pair is
emitted in a suspect group instead, see `c1_counterexample`). -/
theorem c1_thm (h : List Nat → Nat) (disk : List String → Nat → Nat)
    (wl : List (List String)) (files : List FileMeta) (A B : FileMeta)
    (hA : A ∈ files) (hB : B ∈ files) (hAB : A ≠ B)
    (hwA : is_in_whitelist wl A.parts = false)
    (hwB : is_in_whitelist wl B.parts = false)
    (hsz : B.size = A.size) (hpos : 0 < A.size)
    (hcnt : readAll disk A = readAll disk B)
    (hbr : ((A.size : ℚ) / (1024 * 1024)) ≤ MIN_DUP_FILE_SIZE_MB ∨
           ACCURACY_DUP ≤ calculate_accuracy_fuzzy h disk
             (clusterOf h disk (bucketOf wl files A.size) (fast_hash h disk A))) :
    ∃ g, g ∈ (find_dup h disk wl files).confirmed ∧ A ∈ filesOf g ∧ B ∈ filesOf g ∧
      dictGet g "accuracy" = some (GVal.q 1) ∧
      dictGet g "type" = some (GVal.s "confirmed") := by
  have hfull : full_hash h disk A = full_hash h disk B := by
    unfold full_hash
    rw [hcnt]
  have hkA : A ∈ keptOf wl files := (mem_keptOf wl files A).mpr ⟨hA, hwA, hpos⟩
  have hkB : B ∈ keptOf wl files := (mem_keptOf wl files B).mpr
    ⟨hB, hwB, by rw [hsz]; exact hpos⟩
  have hs : A.size ∈ firstDedup ((keptOf wl files).map (fun f => f.size)) :=
    (mem_firstDedup _ _).mpr (List.mem_map_of_mem _ hkA)
  have hbA : A ∈ bucketOf wl files A.size := by
    unfold bucketOf
    exact List.mem_filter.mpr ⟨hkA, by simp⟩
  have hbB : B ∈ bucketOf wl files A.size := by
    unfold bucketOf
    exact List.mem_filter.mpr ⟨hkB, by simp [hsz]⟩
  have hblen : ¬ (bucketOf wl files A.size).length < 2 := by
    have := two_le_length_of_mem hbA hbB hAB
    omega
  by_cases hsm : ((A.size : ℚ) / (1024 * 1024)) ≤ MIN_DUP_FILE_SIZE_MB
  · obtain ⟨g, hg, hrest⟩ :=
      mem_of_confirmedSub h disk (bucketOf wl files A.size)
        ((A.size : ℚ) / (1024 * 1024)) hbA hbB hAB hfull
    refine ⟨g, mem_find_dup_confirmed h disk wl files A.size g hs ?_, hrest⟩
    unfold groupsForSize
    rw [if_neg hblen, if_pos hsm]
    exact hg
  · have hacc := hbr.resolve_left hsm
    have hfast : fast_hash h disk A = fast_hash h disk B := by
      unfold fast_hash readHead
      rw [hcnt]
    have hcA : A ∈ clusterOf h disk (bucketOf wl files A.size) (fast_hash h disk A) := by
      unfold clusterOf
      exact List.mem_filter.mpr ⟨hbA, by simp⟩
    have hcB : B ∈ clusterOf h disk (bucketOf wl files A.size) (fast_hash h disk A) := by
      unfold clusterOf
      exact List.mem_filter.mpr ⟨hbB, by simp [hfast]⟩
    have hclen :
        ¬ (clusterOf h disk (bucketOf wl files A.size) (fast_hash h disk A)).length < 2 := by
      have := two_le_length_of_mem hcA hcB hAB
      omega
    obtain ⟨g, hg, hrest⟩ :=
      mem_of_confirmedSub h disk
        (clusterOf h disk (bucketOf wl files A.size) (fast_hash h disk A))
        ((A.size : ℚ) / (1024 * 1024)) hcA hcB hAB hfull
    refine ⟨g, mem_find_dup_confirmed h disk wl files A.size g hs ?_, hrest⟩
    unfold groupsForSize
    rw [if_neg hblen, if_neg hsm]
    rw [List.mem_flatten]
    refine ⟨(bigGroupsFor h disk (bucketOf wl files A.size)
        ((A.size : ℚ) / (1024 * 1024)) (fast_hash h disk A)).1,
      List.mem_map_of_mem _ ?_, ?_⟩
    · exact (mem_firstDedup _ _).mpr (List.mem_map_of_mem _ hbA)
    · unfold bigGroupsFor
      rw [if_neg hclen, if_pos hacc]
      exact hg

/-- C1 witness: two byte-identical 5-byte files land in the same confirmed
group with accuracy 1.0, by `c1_thm` at a concrete input. -/
theorem c1_witness :
    (exSmallX ∈ ([exSmallX, exSmallY] : List FileMeta)) ∧
    exSmallX ≠ exSmallY ∧
    readAll diskZero exSmallX = readAll diskZero exSmallY ∧
    (∃ g, g ∈ (find_dup hashZero diskZero [] [exSmallX, exSmallY]).confirmed ∧
      exSmallX ∈ filesOf g ∧ exSmallY ∈ filesOf g ∧
      dictGet g "accuracy" = some (GVal.q 1) ∧
      dictGet g "type" = some (GVal.s "confirmed")) :=
  ⟨by decide, by decide, by decide,
    c1_thm hashZero diskZero [] [exSmallX, exSmallY] exSmallX exSmallY
      (by decide) (by decide) (by decide) (by decide) (by decide)
      (by decide) (by decide) (by decide)
      (Or.inl (by with_unfolding_all decide))⟩

set_option maxRecDepth 8000 in
/-- C2 (code bug).  When the quarantine move of a `delete` action fails
(the path is in the filesystem's deny set, modelling `PermissionError`),
the journal does record the action with status `error` and the error
detail, the run continues, and the file is left in place — but, contrary
to the claim and to the statistics' own field names, `Executor.delete_file`
still increments `files_deleted`, still adds the file's size to
`space_freed_mb`, appends nothing to `statistics['errors']`, and returns
`True`: `add_action` swallows the exception, so the executor's error path
is unreachable. -/
theorem c2_thm :
    (delete_file ["data", "logs", "quarantine"] false
      { fs := { files := [(["c", "u", "doc.txt"], [1, 2, 3])]
                deny := [["c", "u", "doc.txt"]] }
        acts := [], stats := exStats0 }
      ["c", "u", "doc.txt"] "temporary file").1.acts =
      [{ type_ := "delete", file := ["c", "u", "doc.txt"]
         reason := "temporary file", details_size_mb := 0
         quarantine := none, status := some "error"
         errMsg := some "PermissionError" }] ∧
    fsGet (delete_file ["data", "logs", "quarantine"] false
      { fs := { files := [(["c", "u", "doc.txt"], [1, 2, 3])]
                deny := [["c", "u", "doc.txt"]] }
        acts := [], stats := exStats0 }
      ["c", "u", "doc.txt"] "temporary file").1.fs ["c", "u", "doc.txt"] =
      some [1, 2, 3] ∧
    (delete_file ["data", "logs", "quarantine"] false
      { fs := { files := [(["c", "u", "doc.txt"], [1, 2, 3])]
                deny := [["c", "u", "doc.txt"]] }
        acts := [], stats := exStats0 }
      ["c", "u", "doc.txt"] "temporary file").1.stats.files_deleted = 1 ∧
    (delete_file ["data", "logs", "quarantine"] false
      { fs := { files := [(["c", "u", "doc.txt"], [1, 2, 3])]
                deny := [["c", "u", "doc.txt"]] }
        acts := [], stats := exStats0 }
      ["c", "u", "doc.txt"] "temporary file").1.stats.errors = [] ∧
    (delete_file ["data", "logs", "quarantine"] false
      { fs := { files := [(["c", "u", "doc.txt"], [1, 2, 3])]
                deny := [["c", "u", "doc.txt"]] }
        acts := [], stats := exStats0 }
      ["c", "u", "doc.txt"] "temporary file").1.stats.space_freed_mb
        * (1024 * 1024) = 3 ∧
    (delete_file ["data", "logs", "quarantine"] false
      { fs := { files := [(["c", "u", "doc.txt"], [1, 2, 3])]
                deny := [["c", "u", "doc.txt"]] }
        acts := [], stats := exStats0 }
      ["c", "u", "doc.txt"] "temporary file").2 = true := by
  refine ⟨?_, ?_, ?_, ?_, ?_, ?_⟩ <;> with_unfolding_all decide

/-- C3 counterexample.  `analyze_suspect_duplicate` parses no risk field
and has no safety override: on a response carrying both `DECISION: YES`
and `RISK: HIGH` it still returns `should_delete = True`, refuting the
claim's "every arbitration operation — suspect-duplicate analysis, ...
alike". -/
theorem c3_counterexample :
    analyze_suspect_duplicate
      (strL "DECISION: YES\nRISK: HIGH\nJUSTIFICATION: delete them") =
    .ok (true, strL "delete them") := by
  decide

/-- C3 (amended).  The safety override holds for the two operations that
parse a danger field: whenever `analyze_old_file`'s parsed risk contains
`HIGH`, it returns `should_delete = False` with the override annotation
appended to the justification; whenever `analyze_process`'s parsed safety
contains `DANGEROUS`, it returns `should_kill = False` with its own
annotation — in both cases regardless of any `DECISION: YES` in the
response.  `analyze_suspect_duplicate` has no such override
(`c3_counterexample`). -/
theorem c3_thm (r1 r2 j1 risk j2 safety : List Char)
    (h1 : parseFieldJust (strL "RISK:") (strL "MEDIUM") r1 = .ok (j1, risk))
    (hr : isSubstr (strL "HIGH") (upperStr risk) = true)
    (h2 : parseFieldJust (strL "SAFETY:") (strL "CAUTION") r2 = .ok (j2, safety))
    (hs : isSubstr (strL "DANGEROUS") (upperStr safety) = true) :
    analyze_old_file r1 =
      .ok (false, j1 ++ strL " [HIGH RISK - requires manual confirmation]") ∧
    analyze_process r2 =
      .ok (false, j2 ++ strL " [DANGEROUS - will not be killed]") := by
  constructor
  · have hred : analyze_old_file r1 =
        if isSubstr (strL "HIGH") (upperStr risk) = true then
          .ok (false, j1 ++ strL " [HIGH RISK - requires manual confirmation]")
        else
          .ok (isSubstr (strL "DECISION: YES") (upperStr r1), j1) := by
      unfold analyze_old_file
      rw [h1]
    rw [hred, if_pos hr]
  · have hred : analyze_process r2 =
        if isSubstr (strL "DANGEROUS") (upperStr safety) = true then
          .ok (false, j2 ++ strL " [DANGEROUS - will not be killed]")
        else
          .ok (isSubstr (strL "DECISION: YES") (upperStr r2), j2) := by
      unfold analyze_process
      rw [h2]
    rw [hred, if_pos hs]

/-- C3 witness: the override fires on a concrete `DECISION: YES` +
`RISK: HIGH` (resp. `SAFETY: DANGEROUS`) response, by `c3_thm`. -/
theorem c3_witness :
    analyze_old_file (strL "DECISION: YES\nRISK: HIGH\nJUSTIFICATION: x") =
      .ok (false, strL "x" ++ strL " [HIGH RISK - requires manual confirmation]") ∧
    analyze_process (strL "DECISION: YES\nSAFETY: DANGEROUS\nJUSTIFICATION: y") =
      .ok (false, strL "y" ++ strL " [DANGEROUS - will not be killed]") :=
  c3_thm
    (strL "DECISION: YES\nRISK: HIGH\nJUSTIFICATION: x")
    (strL "DECISION: YES\nSAFETY: DANGEROUS\nJUSTIFICATION: y")
    (strL "x") (strL "HIGH") (strL "y") (strL "DANGEROUS")
    (by decide) (by decide) (by decide) (by decide)

/-- C4 counterexample.  A concrete quarantine/recover round trip: the file
is restored, but the journal's only entry still carries status
`moved to quarantine` — nothing ever records a `recovered` status
(`Recuperator.recover_file` does not read or write the journal at all), so
the claimed `quarantined → recovered` status transition does not happen. -/
theorem c4_counterexample :
    ((delete_file ["q"] false
        { fs := { files := [(["u", "f.txt"], [7, 8])], deny := [] }
          acts := [], stats := exStats0 }
        ["u", "f.txt"] "dup").1.acts.map (fun a => a.status) =
      [some "moved to quarantine"]) ∧
    (recover_file
        (delete_file ["q"] false
          { fs := { files := [(["u", "f.txt"], [7, 8])], deny := [] }
            acts := [], stats := exStats0 }
          ["u", "f.txt"] "dup").1.fs
        (["q"] ++ ["u", "f.txt"]) ["u", "f.txt"]).1.files =
      [(["u", "f.txt"], [7, 8])] ∧
    some "moved to quarantine" ≠ some "recovered" := by
  refine ⟨?_, ?_, ?_⟩ <;> with_unfolding_all decide

/-- C4 (amended).  For every file quarantined by a successful `delete`
action, recovering the corresponding entry restores the file at its
original path with identical byte content (hence identical size), and the
recovery reports success; the journal entry, however, is never mutated:
its recorded status remains `moved to quarantine` (the journal has no
`recovered` state; `recover_file` takes no journal reference). -/
theorem c4_thm (qdir : List String) (st : ExecState) (p : List String)
    (c : List Nat) (reason : String)
    (hget : fsGet st.fs p = some c)
    (hd1 : p ∉ st.fs.deny) (hd2 : qdir ++ p ∉ st.fs.deny) :
    (delete_file qdir false st p reason).2 = true ∧
    (delete_file qdir false st p reason).1.acts = st.acts ++
      [{ type_ := "delete", file := p, reason := reason
         details_size_mb := pyRound2 ((c.length : ℚ) / (1024 * 1024))
         quarantine := some (qdir ++ p)
         status := some "moved to quarantine", errMsg := none }] ∧
    fsGet (recover_file (delete_file qdir false st p reason).1.fs
      (qdir ++ p) p).1 p = some c ∧
    (recover_file (delete_file qdir false st p reason).1.fs
      (qdir ++ p) p).2.1 = true := by
  have hmove1 : fsMove st.fs p (qdir ++ p) =
      .ok { st.fs with
        files := (qdir ++ p, c) :: fsErase (fsErase st.fs.files p) (qdir ++ p) } := by
    unfold fsMove
    rw [if_neg hd1, hget]
  have hdel : delete_file qdir false st p reason =
      ({ fs := { st.fs with
           files := (qdir ++ p, c) :: fsErase (fsErase st.fs.files p) (qdir ++ p) }
         acts := st.acts ++
           [{ type_ := "delete", file := p, reason := reason
              details_size_mb := pyRound2 ((c.length : ℚ) / (1024 * 1024))
              quarantine := some (qdir ++ p)
              status := some "moved to quarantine", errMsg := none }]
         stats := { st.stats with
                    files_deleted := st.stats.files_deleted + 1
                    space_freed_mb := st.stats.space_freed_mb +
                      (c.length : ℚ) / (1024 * 1024) } }, true) := by
    unfold delete_file add_action
    rw [hget, hmove1]
    rfl
  have hget2 : fsGet { st.fs with
      files := (qdir ++ p, c) :: fsErase (fsErase st.fs.files p) (qdir ++ p) }
      (qdir ++ p) = some c := fsGet_head _ _ _ _
  have hmove2 : fsMove { st.fs with
      files := (qdir ++ p, c) :: fsErase (fsErase st.fs.files p) (qdir ++ p) }
      (qdir ++ p) p =
      .ok { st.fs with
        files := (p, c) :: fsErase (fsErase
          ((qdir ++ p, c) :: fsErase (fsErase st.fs.files p) (qdir ++ p))
          (qdir ++ p)) p } := by
    unfold fsMove
    rw [if_neg hd2, hget2]
  have hrec : recover_file { st.fs with
      files := (qdir ++ p, c) :: fsErase (fsErase st.fs.files p) (qdir ++ p) }
      (qdir ++ p) p =
      ({ st.fs with
         files := (p, c) :: fsErase (fsErase
           ((qdir ++ p, c) :: fsErase (fsErase st.fs.files p) (qdir ++ p))
           (qdir ++ p)) p }, true, ["Recovered"]) := by
    unfold recover_file
    rw [hget2, hmove2]
    simp
  rw [hdel]
  refine ⟨rfl, rfl, ?_, ?_⟩
  · simp only
    rw [hrec]
    exact fsGet_head _ _ _ _
  · simp only
    rw [hrec]

/-- C4 witness: the round trip of `c4_thm` at a concrete filesystem. -/
theorem c4_witness :
    fsGet { files := [(["u", "f.txt"], [7, 8])], deny := [] } ["u", "f.txt"] =
      some [7, 8] ∧
    (delete_file ["q"] false
      { fs := { files := [(["u", "f.txt"], [7, 8])], deny := [] }
        acts := [], stats := exStats0 } ["u", "f.txt"] "dup").2 = true ∧
    fsGet (recover_file
      (delete_file ["q"] false
        { fs := { files := [(["u", "f.txt"], [7, 8])], deny := [] }
          acts := [], stats := exStats0 } ["u", "f.txt"] "dup").1.fs
      (["q"] ++ ["u", "f.txt"]) ["u", "f.txt"]).1 ["u", "f.txt"] = some [7, 8] :=
  ⟨by decide,
    (c4_thm ["q"]
      { fs := { files := [(["u", "f.txt"], [7, 8])], deny := [] }
        acts := [], stats := exStats0 }
      ["u", "f.txt"] [7, 8] "dup" (by decide) (by decide) (by decide)).1,
    (c4_thm ["q"]
      { fs := { files := [(["u", "f.txt"], [7, 8])], deny := [] }
        acts := [], stats := exStats0 }
      ["u", "f.txt"] [7, 8] "dup" (by decide) (by decide) (by decide)).2.2.1⟩

/-- C5 counterexample.  An old `.zip` inside a whitelisted directory is
selected by the compressed-file loop of `general_cleanup`, which performs
no whitelist check — refuting "every file-enumeration loop of the program
(…compressed-file scan…) skips it". -/
theorem c5_counterexample :
    is_in_whitelist [["c", "protected"]] exZip.parts = true ∧
    compressed_scan (86400 * 40) [exZip] = [exZip] := by
  refine ⟨?_, ?_⟩ <;> with_unfolding_all decide

/-- C5 (amended).  Whitelisted paths are excluded from the temporary-file
scan, from every group emitted by the duplicate pipeline (`find_dup`), and
from the unused-file scan; the compressed-file scan, by contrast, does not
consult the whitelist and can select whitelisted paths
(`c5_counterexample`). -/
theorem c5_thm (h : List Nat → Nat) (disk : List String → Nat → Nat)
    (wl : List (List String)) (files : List FileMeta) (now : ℚ) :
    (∀ f ∈ temp_files_scan wl files, is_in_whitelist wl f.parts = false) ∧
    (∀ g, (g ∈ (find_dup h disk wl files).confirmed ∨
           g ∈ (find_dup h disk wl files).suspect) →
      ∀ f ∈ filesOf g, is_in_whitelist wl f.parts = false) ∧
    (∀ u ∈ unused_files wl now files, is_in_whitelist wl u.file.parts = false) := by
  refine ⟨?_, ?_, ?_⟩
  · intro f hf
    unfold temp_files_scan at hf
    rw [List.mem_filter] at hf
    have := hf.2
    simp only [Bool.and_eq_true, Bool.not_eq_true'] at this
    exact this.1
  · intro g hg f hf
    obtain ⟨l, lmb, a, ty, rfl, hsub⟩ := find_dup_mem_inv hg
    rw [filesOf_mkGroup] at hf
    exact ((mem_keptOf wl files f).mp (hsub f hf)).2.1
  · intro u hu
    unfold unused_files at hu
    rw [List.mem_map] at hu
    obtain ⟨f, hf, rfl⟩ := hu
    rw [List.mem_filter] at hf
    have := hf.2
    simp only [Bool.and_eq_true, Bool.not_eq_true'] at this
    exact this.1

/-- C5 witness: the temp-scan clause of `c5_thm` at a concrete file
selected by the scan. -/
theorem c5_witness :
    exTemp ∈ temp_files_scan [["c", "protected"]] [exTemp] ∧
    is_in_whitelist [["c", "protected"]] exTemp.parts = false :=
  ⟨by decide,
    (c5_thm hashZero diskZero [["c", "protected"]] [exTemp] 0).1
      exTemp (by decide)⟩

/-- C6 counterexample.  On the spec's own scenario (`report.docx` vs
`report (1).docx`, same extension and size, mtimes 2 hours apart, equal
fast digest) the score is *not* 1.0: `report` is a substring of
`report (1)`, so the +0.3 substring branch fires, not the +0.4 exact-match
branch — the stripped-stem comparison the claim invokes is never reached. -/
theorem c6_counterexample :
    calculate_accuracy_fuzzy hashZero diskZero [exReport, exReport1] ≠ 1 := by
  with_unfolding_all decide

/-- C6 (amended).  On that scenario the pairwise score is exactly
0.2 (extension) + 0.3 (one lowered stem a substring of the other) +
0.2 (mtime difference under 1 day) + 0.2 (fast-digest equality) = 0.9
(in the exact-arithmetic model; Python floats give 0.8999999999999999). -/
theorem c6_thm :
    nameScore (lowerStr (stemOf exReport)) (lowerStr (stemOf exReport1)) = 3/10 ∧
    pairScore hashZero diskZero exReport exReport1 = 9/10 ∧
    calculate_accuracy_fuzzy hashZero diskZero [exReport, exReport1] = 9/10 := by
  refine ⟨?_, ?_, ?_⟩ <;> with_unfolding_all decide

/-- C7 counterexample.  Purging an entry whose quarantine copy is already
gone does nothing *silently*: `Recuperator.delete_file` prints no message
at all in that case, so the claim's "reported as not found" is false (the
`recover_file` path has such a report; the purge path does not). -/
theorem c7_counterexample :
    fsGet { files := [], deny := [] } ["q", "x"] = none ∧
    recup_delete_file { files := [], deny := [] } ["q", "x"] =
      ({ files := [], deny := [] }, []) := by
  refine ⟨?_, ?_⟩ <;> decide

/-- C7 (amended).  Purging an entry whose quarantine copy no longer exists
is a no-op: the filesystem is unchanged and no exception interrupts a
batch purge (the embedded function is total; the source wraps `unlink` in
`try/except`) — but it is silent: the console-report list is empty, with
no "not found" message. -/
theorem c7_thm (fs : FSL) (q : List String) (hq : fsGet fs q = none) :
    recup_delete_file fs q = (fs, []) := by
  unfold recup_delete_file
  rw [hq]
  rfl

/-- C7 witness: `c7_thm` at a concrete filesystem with the entry
already gone. -/
theorem c7_witness :
    fsGet { files := [(["u", "a.txt"], [1])], deny := [] } ["q", "x"] = none ∧
    recup_delete_file { files := [(["u", "a.txt"], [1])], deny := [] } ["q", "x"] =
      ({ files := [(["u", "a.txt"], [1])], deny := [] }, []) :=
  ⟨by decide, c7_thm _ _ (by decide)⟩

/-- C8 (confirmed).  For every list of files the group similarity score of
`_calculate_accuracy_fuzzy` lies in [0, 1], and for every list with fewer
than 2 files it is exactly 0. -/
theorem c8_thm (h : List Nat → Nat) (disk : List String → Nat → Nat)
    (files : List FileMeta) :
    (0 ≤ calculate_accuracy_fuzzy h disk files ∧
      calculate_accuracy_fuzzy h disk files ≤ 1) ∧
    (files.length < 2 → calculate_accuracy_fuzzy h disk files = 0) := by
  unfold calculate_accuracy_fuzzy
  by_cases hlen : files.length < 2
  · rw [if_pos hlen]
    refine ⟨⟨le_refl 0, by norm_num⟩, fun _ => rfl⟩
  · rw [if_neg hlen]
    refine ⟨?_, fun hcon => absurd hcon hlen⟩
    by_cases hp : 0 < ((allPairs files).map
        (fun pr => pairScore h disk pr.1 pr.2)).length
    · rw [if_pos hp]
      constructor
      · apply div_nonneg
        · apply List.sum_nonneg
          intro x hx
          rw [List.mem_map] at hx
          obtain ⟨pr, _, rfl⟩ := hx
          exact pairScore_nonneg h disk pr.1 pr.2
        · exact_mod_cast Nat.zero_le _
      · rw [div_le_one (by exact_mod_cast hp)]
        apply sum_le_length_of_le_one
        intro x hx
        rw [List.mem_map] at hx
        obtain ⟨pr, _, rfl⟩ := hx
        exact pairScore_le_one h disk pr.1 pr.2
    · rw [if_neg hp]
      exact ⟨le_refl 0, by norm_num⟩

/-- C8 witness: `c8_thm` at the empty list, whose score is 0. -/
theorem c8_witness :
    (0 ≤ calculate_accuracy_fuzzy hashZero diskZero [] ∧
      calculate_accuracy_fuzzy hashZero diskZero [] ≤ 1) ∧
    calculate_accuracy_fuzzy hashZero diskZero [] = 0 :=
  ⟨(c8_thm hashZero diskZero []).1,
    (c8_thm hashZero diskZero []).2 (by decide)⟩

/-- C9 counterexample.  With the LLM unavailable, a run whose result has
suspect groups but no confirmed group raises no `KeyError` at all — the
suspect loop (and its `group['confidence']` access) is gated behind
`llm_available`, so "raises KeyError whenever find_dup returns at least
one group" is false. -/
theorem c9_counterexample :
    (find_dup hashZero diskZero [] [exBigA, exBigB]).confirmed = [] ∧
    (find_dup hashZero diskZero [] [exBigA, exBigB]).suspect ≠ [] ∧
    deep_cleanup_dup_section (find_dup hashZero diskZero [] [exBigA, exBigB])
      false = .ok () := by
  refine ⟨?_, ?_, ?_⟩ <;> with_unfolding_all decide

/-- C9 (amended).  Every group record emitted by `find_dup` has exactly
the keys `files`, `length_mb`, `accuracy`, `type` — never `size_mb` or
`confidence`; consequently `deep_cleanup`'s duplicate section raises
`KeyError` whenever there is at least one confirmed group (at
`group['size_mb']`), and, when the LLM is available, whenever there is at
least one suspect group (at `group['confidence']`); with the LLM
unavailable and no confirmed groups it completes without error. -/
theorem c9_thm (h : List Nat → Nat) (disk : List String → Nat → Nat)
    (wl : List (List String)) (files : List FileMeta) (llm : Bool) :
    (∀ g, (g ∈ (find_dup h disk wl files).confirmed ∨
           g ∈ (find_dup h disk wl files).suspect) →
      keysOf g = ["files", "length_mb", "accuracy", "type"] ∧
      dictGet g "size_mb" = none ∧ dictGet g "confidence" = none) ∧
    ((find_dup h disk wl files).confirmed ≠ [] →
      deep_cleanup_dup_section (find_dup h disk wl files) llm =
        .error "KeyError: size_mb") ∧
    ((find_dup h disk wl files).confirmed = [] →
      (find_dup h disk wl files).suspect ≠ [] → llm = true →
      deep_cleanup_dup_section (find_dup h disk wl files) llm =
        .error "KeyError: confidence") ∧
    ((find_dup h disk wl files).confirmed = [] → llm = false →
      deep_cleanup_dup_section (find_dup h disk wl files) llm = .ok ()) := by
  refine ⟨?_, ?_, ?_, ?_⟩
  · intro g hg
    obtain ⟨l, lmb, a, ty, rfl, _⟩ := find_dup_mem_inv hg
    exact ⟨rfl, rfl, rfl⟩
  · intro hne
    cases hc : (find_dup h disk wl files).confirmed with
    | nil => exact absurd hc hne
    | cons g gs =>
      have hg : g ∈ (find_dup h disk wl files).confirmed := by
        rw [hc]
        exact List.mem_cons_self g gs
      obtain ⟨l, lmb, a, ty, hgeq, _⟩ := find_dup_mem_inv (Or.inl hg)
      subst hgeq
      exact dup_section_err_confirmed _ llm l lmb a ty gs hc
  · intro hcnil hne hllm
    cases hs : (find_dup h disk wl files).suspect with
    | nil => exact absurd hs hne
    | cons g gs =>
      have hg : g ∈ (find_dup h disk wl files).suspect := by
        rw [hs]
        exact List.mem_cons_self g gs
      obtain ⟨l, lmb, a, ty, hgeq, _⟩ := find_dup_mem_inv (Or.inr hg)
      subst hgeq
      exact dup_section_err_suspect _ llm l lmb a ty gs hcnil hs hllm
  · intro hcnil hllm
    exact dup_section_ok_of _ llm hcnil hllm

/-- C9 witness: a concrete run with one confirmed group raises the
`size_mb` KeyError, and its group carries exactly the four keys, by
`c9_thm`. -/
theorem c9_witness :
    deep_cleanup_dup_section
      (find_dup hashZero diskZero [] [exSmallX, exSmallY]) true =
      .error "KeyError: size_mb" :=
  (c9_thm hashZero diskZero [] [exSmallX, exSmallY] true).2.1
    (by with_unfolding_all decide)

/-- C10 (confirmed).  `find_dup` only buckets files with `st_size > 0`, so
every file of every emitted group (confirmed or suspect) has positive
size; in particular no pair of empty files ever appears together in any
group. -/
theorem c10_thm (h : List Nat → Nat) (disk : List String → Nat → Nat)
    (wl : List (List String)) (files : List FileMeta) :
    (∀ g, (g ∈ (find_dup h disk wl files).confirmed ∨
           g ∈ (find_dup h disk wl files).suspect) →
      ∀ f ∈ filesOf g, 0 < f.size) ∧
    (∀ A B : FileMeta, A.size = 0 → B.size = 0 →
      ∀ g, (g ∈ (find_dup h disk wl files).confirmed ∨
            g ∈ (find_dup h disk wl files).suspect) →
        ¬ (A ∈ filesOf g ∧ B ∈ filesOf g)) := by
  have hmain : ∀ g, (g ∈ (find_dup h disk wl files).confirmed ∨
      g ∈ (find_dup h disk wl files).suspect) → ∀ f ∈ filesOf g, 0 < f.size := by
    intro g hg f hf
    obtain ⟨l, lmb, a, ty, rfl, hsub⟩ := find_dup_mem_inv hg
    rw [filesOf_mkGroup] at hf
    exact ((mem_keptOf wl files f).mp (hsub f hf)).2.2
  refine ⟨hmain, ?_⟩
  intro A B hA0 _ g hg hmem
  have := hmain g hg A hmem.1
  omega

/-- C10 witness: `c10_thm` applied to a concrete run that emits a
confirmed group; every member of that group has positive size. -/
theorem c10_witness :
    ∃ g, (g ∈ (find_dup hashZero diskZero [] [exSmallX, exSmallY]).confirmed ∨
          g ∈ (find_dup hashZero diskZero [] [exSmallX, exSmallY]).suspect) ∧
      ∀ f ∈ filesOf g, 0 < f.size := by
  have hbA : exSmallX ∈ bucketOf [] [exSmallX, exSmallY] exSmallX.size := by
    unfold bucketOf keptOf
    decide
  have hbB : exSmallY ∈ bucketOf [] [exSmallX, exSmallY] exSmallX.size := by
    unfold bucketOf keptOf
    decide
  obtain ⟨g, hgsub, -, -, -, -⟩ :=
    mem_of_confirmedSub hashZero diskZero
      (bucketOf [] [exSmallX, exSmallY] exSmallX.size)
      ((exSmallX.size : ℚ) / (1024 * 1024)) hbA hbB (by decide) rfl
  have hs : exSmallX.size ∈
      firstDedup ((keptOf [] [exSmallX, exSmallY]).map (fun f => f.size)) := by
    rw [mem_firstDedup]
    unfold keptOf
    decide
  have hblen : ¬ (bucketOf [] [exSmallX, exSmallY] exSmallX.size).length < 2 := by
    unfold bucketOf keptOf
    decide
  have hsm : ((exSmallX.size : ℚ) / (1024 * 1024)) ≤ MIN_DUP_FILE_SIZE_MB := by
    with_unfolding_all decide
  have hgfind : g ∈ (find_dup hashZero diskZero [] [exSmallX, exSmallY]).confirmed := by
    apply mem_find_dup_confirmed hashZero diskZero [] [exSmallX, exSmallY]
      exSmallX.size g hs
    unfold groupsForSize
    rw [if_neg hblen, if_pos hsm]
    exact hgsub
  exact ⟨g, Or.inl hgfind,
    (c10_thm hashZero diskZero [] [exSmallX, exSmallY]).1 g (Or.inl hgfind)⟩

end Cleaner
